import Mathlib

/-!
# Verification of the fund portfolio backtesting engine

Shallow embedding of `src/utils/fund_backtrader_new.py`
(`BasePortfolioBacktest`, `SubscriptionRedemptionBacktest`,
`WeightBasedBacktest`, `PortfolioEvaluator`).

Modelling conventions:
* Python floats are modelled as `ℚ` (exact arithmetic; the constants the
  code compares against — `10`, `1000`, `1e-4` — are exactly representable).
* Trading dates are modelled as natural numbers: the position of the date in
  the engine's `trade_dates` calendar, so "next trading day"
  (`trade_dates[get_loc(date) + 1]`) is `+ 1`.
* The instrument universe `fund_codes` is `Fin n`.
* Per-fund pandas `Series` (`units_series`, `costs_series`) are functions
  `Fin n → ℚ`; the historical matrices (`units_df`, `costs_df`, `nav_df`)
  are association lists `List (ℕ × (Fin n → ℚ))` with the most recent row
  first (a later write to the same date shadows the earlier one, matching
  `df.loc[date] = row` overwrite semantics).
* `fund_nav_dict` is `Fin n → ℕ → Option ℚ` (exact-date lookup into the
  per-fund NAV series; `none` both for a missing index entry and for a
  stored null, merging the two rejection tests at the top of
  `process_trade`).  `fund_nav_df` (the forward-filled NAV matrix) is a
  total function `ℕ → Fin n → ℚ`.
* Python exceptions (`raise ValueError`) are `Except Err`; a raised error
  aborts the surrounding loop exactly as an uncaught Python exception
  aborts the backtest run.
* Log output (`logger.warning` / `logger.error` / `logger.info`) is not
  state; where a claim depends on whether a warning was emitted, the
  corresponding function returns a `Bool` flag alongside its result
  (`redemptionError`), and the engine records clamp events in a day log.
* The day loop ingests the order-book entries that `_process_daily_trades`
  builds from the day's `trade_info` rows; the row-to-order conversion
  itself (redemption units from cash amount, and the `ensure_date_in_nav`
  as-of cache insertion it performs) and the one-time money-market NAV
  patch `_adjust_money_fund_nav` are outside the modelled loop.
-/

namespace FundBacktest

/-- 交易类型: the source dispatches on the strings '申购' (subscribe) and
'赎回' (redeem); any other string raises `ValueError`.  We model the type as
a closed enum, so the unreachable `else: raise` branch has no counterpart. -/
inductive TradeType where
  | subscribe
  | redeem
deriving DecidableEq, Repr

/-- Errors raised by the engine (uncaught Python exceptions). -/
inductive Err where
  /-- `raise ValueError("赎回份额超过持有份额")` in `redemption_error`. -/
  | redemptionExceedsHoldings
  /-- A subscription whose `交易金额` is null (out of modelled scope: in the
  source a NaN amount would silently poison the arithmetic). -/
  | missingAmount
  /-- A redemption whose `份额` is null (same remark). -/
  | missingUnits
deriving DecidableEq, Repr

/-- An entry of `self.order_book` as built by `_process_daily_trades`:
基金代码, 交易金额 (`none` for a null/NaN amount), 固定费用, 手续费
(a percentage, e.g. `1.5` meaning 1.5%), 交易类型, 确认日期, 份额. -/
structure Order (n : ℕ) where
  fundCode : Fin n
  amount : Option ℚ
  flatFee : ℚ
  pctFee : ℚ
  tradeType : TradeType
  confirmDate : ℕ
  units : Option ℚ
deriving DecidableEq, Repr

/-- An entry of `self.confirm_orders[date_key]` as built by `_record_order`:
the amount is resolved (redemption proceeds computed if they were null)
and 组合份额 (`delta_portfolio_units`) is attached. -/
structure ConfirmedOrder (n : ℕ) where
  fundCode : Fin n
  amount : ℚ
  tradeType : TradeType
  confirmDate : ℕ
  units : ℚ
  deltaPortfolioUnits : ℚ
deriving DecidableEq, Repr

/-- A record of one write performed by the reconciliation clamp in
`redemption_error`: the fund, the holding before, the holding written, and
whether the write was accompanied by a `logger.warning` (the
`units > holding + 10` branch) or silent (the `abs(units - holding) <= 10`
branch). -/
structure ClampEvent (n : ℕ) where
  fundCode : Fin n
  oldHolding : ℚ
  newHolding : ℚ
  warned : Bool
deriving DecidableEq, Repr

/-- The mutable state of `BasePortfolioBacktest` that the day loop touches. -/
structure EngineState (n : ℕ) where
  /-- `self.nowadays`. -/
  nowadays : ℕ
  /-- `self.units_series` (当前份额序列). -/
  unitsSeries : Fin n → ℚ
  /-- `self.costs_series` (当前成本序列). -/
  costsSeries : Fin n → ℚ
  /-- `self.current_units` (组合份额). -/
  currentUnits : ℚ
  /-- `self.current_nav` (组合总净值). -/
  currentNav : ℚ
  /-- `self.current_unit_nav` (组合单位净值). -/
  currentUnitNav : ℚ
  /-- `self.current_costs`. -/
  currentCosts : ℚ
  /-- `self.order_book`: a dict `idx → order`, iterated in insertion order. -/
  orderBook : List (ℕ × Order n)
  /-- `self.confirm_orders`: confirm-date-keyed settlement queue; a missing
  key and an empty list are identified. -/
  confirmOrders : ℕ → List (ConfirmedOrder n)
  /-- `self.units_df`, most recent row first. -/
  unitsDf : List (ℕ × (Fin n → ℚ))
  /-- `self.costs_df`, most recent row first. -/
  costsDf : List (ℕ × (Fin n → ℚ))
  /-- `self.nav_df` (market-value matrix), most recent row first. -/
  navDf : List (ℕ × (Fin n → ℚ))
  /-- `self.portfolio_series`, most recent entry first. -/
  portfolioSeries : List (ℕ × ℚ)

/-- 份额申购公式 (line 232): `(amount - flat_fee) / nav / (1 + percentage_fee / 100)`. -/
def subscriptionUnits (amount flatFee nav pctFee : ℚ) : ℚ :=
  (amount - flatFee) / nav / (1 + pctFee / 100)

/-- 赎回金额公式 (line 239): `units * nav * (1 - percentage_fee / 100) - flat_fee`,
used when the order's 交易金额 is null. -/
def redemptionProceeds (units nav pctFee flatFee : ℚ) : ℚ :=
  units * nav * (1 - pctFee / 100) - flatFee

/-- `redemption_error` (lines 247-264).  Given the requested units and the
current holding `units_series[fund_code]`, returns
`(some newHolding, warned)` when one of the clamp branches rewrote the
holding, `(none, false)` when no branch fired, and raises
(`ValueError("赎回份额超过持有份额")`) when the request exceeds the holding
by more than 1000 units. -/
def redemptionError (units holding : ℚ) : Except Err (Option ℚ × Bool) :=
  if units > holding + 1000 then
    .error .redemptionExceedsHoldings
  else if units > holding + 10 then
    .ok (some units, true)
  else if |units - holding| ≤ 10 then
    .ok (some units, false)
  else
    .ok (none, false)

/-- `_record_order` (lines 277-302): clamp a confirm date lying in the past
forward to `nowadays`, then append the confirmed order to
`confirm_orders[confirm_date]`. -/
def recordOrder (s : EngineState n) (fundCode : Fin n) (amount : ℚ)
    (tradeType : TradeType) (confirmDate : ℕ) (units deltaPortfolioUnits : ℚ) :
    EngineState n :=
  let cd := if s.nowadays > confirmDate then s.nowadays else confirmDate
  { s with
    confirmOrders := fun d =>
      if d = cd then
        s.confirmOrders cd ++
          [⟨fundCode, amount, tradeType, cd, units, deltaPortfolioUnits⟩]
      else s.confirmOrders d }

/-- `_apply_order` (lines 304-320). -/
def applyOrder (s : EngineState n) (o : ConfirmedOrder n) : EngineState n :=
  match o.tradeType with
  | .subscribe =>
      { s with
        unitsSeries := Function.update s.unitsSeries o.fundCode
          (s.unitsSeries o.fundCode + o.units)
        costsSeries := Function.update s.costsSeries o.fundCode
          (s.costsSeries o.fundCode + o.amount)
        currentUnits := s.currentUnits + o.deltaPortfolioUnits }
  | .redeem =>
      { s with
        unitsSeries := Function.update s.unitsSeries o.fundCode
          (s.unitsSeries o.fundCode - o.units)
        costsSeries := Function.update s.costsSeries o.fundCode
          (s.costsSeries o.fundCode - o.amount)
        currentUnits := s.currentUnits - o.deltaPortfolioUnits }

/-- `_update_confirmed_orders` (lines 266-275): apply every order queued for
`date`, then pop the key.  Also returns the list of orders applied. -/
def updateConfirmedOrders (s : EngineState n) (date : ℕ) :
    EngineState n × List (ConfirmedOrder n) :=
  let due := s.confirmOrders date
  let s1 := due.foldl applyOrder s
  ({ s1 with confirmOrders := fun d => if d = date then [] else s1.confirmOrders d },
   due)

/-- The dust clamp of `_update_portfolio_status` (line 188):
`units_series.where(np.abs(units_series) >= 1e-4, 0.0)`. -/
def dustClamp (x : ℚ) : ℚ :=
  if |x| ≥ 1 / 10000 then x else 0

/-- `_update_portfolio_status` (lines 185-192): settle the queue for `date`,
zero out dust positions, recompute 总净值 and (when outstanding portfolio
units exceed `1e-4`) 单位净值.  `fundNavDf` is the forward-filled
`fund_nav_df`.  Returns the orders applied. -/
def updatePortfolioStatus (fundNavDf : ℕ → Fin n → ℚ) (s : EngineState n)
    (date : ℕ) : EngineState n × List (ConfirmedOrder n) :=
  let p := updateConfirmedOrders s date
  let s1 := p.1
  let s2 := { s1 with unitsSeries := fun i => dustClamp (s1.unitsSeries i) }
  let nav := ∑ i, s2.unitsSeries i * fundNavDf date i
  let s3 := { s2 with currentNav := nav }
  let s4 :=
    if s3.currentUnits > (1 / 10000 : ℚ) then
      { s3 with currentUnitNav := nav / s3.currentUnits }
    else s3
  (s4, p.2)

/-- `process_trade` (lines 211-245).  Returns the new state, whether the
order was handled (appended to `handled_idx` by `_record_order`), and the
clamp events emitted by `redemption_error`.  An order whose fund has no NAV
entry for `nowadays` is left untouched: the state is returned unchanged and
the order is **not** marked handled. -/
def processTrade (fundNavDict : Fin n → ℕ → Option ℚ) (s : EngineState n)
    (o : Order n) : Except Err (EngineState n × Bool × List (ClampEvent n)) :=
  let fundCode := o.fundCode
  let date := s.nowadays
  match fundNavDict fundCode date with
  | none => .ok (s, false, [])
  | some nav =>
    match o.tradeType with
    | .subscribe =>
      match o.amount with
      | none => .error .missingAmount
      | some amount =>
        let units := subscriptionUnits amount o.flatFee nav o.pctFee
        let deltaPortfolioUnits := amount / s.currentUnitNav
        .ok (recordOrder s fundCode amount .subscribe o.confirmDate units
              deltaPortfolioUnits, true, [])
    | .redeem =>
      match o.units with
      | none => .error .missingUnits
      | some units =>
        let deltaPortfolioUnits := units * nav / s.currentUnitNav
        let amount :=
          match o.amount with
          | some a => a
          | none => redemptionProceeds units nav o.pctFee o.flatFee
        match redemptionError units (s.unitsSeries fundCode) with
        | .error e => .error e
        | .ok (newHolding?, warned) =>
          let s1 :=
            match newHolding? with
            | some newHolding =>
                { s with unitsSeries :=
                    Function.update s.unitsSeries fundCode newHolding }
            | none => s
          let events :=
            match newHolding? with
            | some newHolding =>
                [⟨fundCode, s.unitsSeries fundCode, newHolding, warned⟩]
            | none => []
          .ok (recordOrder s1 fundCode amount .redeem o.confirmDate units
                deltaPortfolioUnits, true, events)

/-- The loop body of `handle_order` (lines 203-207): run `process_trade` on
every order-book entry in insertion order, collecting the handled indices
and the clamp events. -/
def processOrders (fundNavDict : Fin n → ℕ → Option ℚ) :
    EngineState n → List (ℕ × Order n) →
    Except Err (EngineState n × List ℕ × List (ClampEvent n))
  | s, [] => .ok (s, [], [])
  | s, (idx, o) :: rest =>
    match processTrade fundNavDict s o with
    | .error e => .error e
    | .ok r =>
      match processOrders fundNavDict r.1 rest with
      | .error e => .error e
      | .ok r2 =>
        .ok (r2.1, (if r.2.1 then [idx] else []) ++ r2.2.1, r.2.2 ++ r2.2.2)

/-- `handle_order` (lines 203-209): process the whole order book, then pop
the handled entries. -/
def handleOrder (fundNavDict : Fin n → ℕ → Option ℚ) (s : EngineState n) :
    Except Err (EngineState n × List (ClampEvent n)) :=
  match processOrders fundNavDict s s.orderBook with
  | .error e => .error e
  | .ok r =>
    .ok ({ r.1 with
           orderBook := r.1.orderBook.filter fun p => !r.2.1.contains p.1 },
         r.2.2)

/-- The order-book insertion of `_process_daily_trades` (lines 157-183):
append today's orders under fresh indices `max(keys) + 1, ...` (or `0` for an
empty book).  The conversion of raw `trade_info` rows into `Order` records
(units computed for redemptions) happens upstream; the day input of the
model is the list of book entries that conversion produces. -/
def appendOrders (s : EngineState n) (orders : List (Order n)) : EngineState n :=
  let start :=
    match s.orderBook with
    | [] => 0
    | _ => (s.orderBook.map Prod.fst).foldl max 0 + 1
  { s with
    orderBook := s.orderBook ++ orders.enum.map fun p => (start + p.1, p.2) }

/-- `_update_portfolio_records` (lines 194-201): write the day's final
units / market-value / cost rows and the portfolio unit-NAV into the
historical matrices. -/
def updatePortfolioRecords (fundNavDf : ℕ → Fin n → ℚ) (s : EngineState n)
    (date : ℕ) : EngineState n :=
  let navRow := fun i => s.unitsSeries i * fundNavDf date i
  { s with
    unitsDf := (date, s.unitsSeries) :: s.unitsDf
    navDf := (date, navRow) :: s.navDf
    currentNav := ∑ i, navRow i
    portfolioSeries := (date, s.currentUnitNav) :: s.portfolioSeries
    costsDf := (date, s.costsSeries) :: s.costsDf
    currentCosts := ∑ i, s.costsSeries i }

/-- What one day of the loop did: the confirmed orders applied to the
ledger (both settlement passes) and the clamp events of `redemption_error`. -/
structure DayLog (n : ℕ) where
  applied : List (ConfirmedOrder n)
  clamps : List (ClampEvent n)
deriving Repr

/-- One iteration of the day loop of `SubscriptionRedemptionBacktest.backtest`
(lines 349-360): set `nowadays`, `_update_portfolio_status` (first
settlement pass + dust clamp), ingest today's orders into the book,
`handle_order` if the book is nonempty, `_update_confirmed_orders` (second,
same-day settlement pass), `_update_portfolio_records`. -/
def runDay (fundNavDict : Fin n → ℕ → Option ℚ) (fundNavDf : ℕ → Fin n → ℚ)
    (s : EngineState n) (date : ℕ) (newOrders : List (Order n)) :
    Except Err (EngineState n × DayLog n) :=
  let s0 := { s with nowadays := date }
  let p1 := updatePortfolioStatus fundNavDf s0 date
  let s2 := appendOrders p1.1 newOrders
  match
    (if s2.orderBook.isEmpty then .ok (s2, ([] : List (ClampEvent n)))
     else handleOrder fundNavDict s2) with
  | .error e => .error e
  | .ok r =>
    let p2 := updateConfirmedOrders r.1 date
    let s5 := updatePortfolioRecords fundNavDf p2.1 date
    .ok (s5, ⟨p1.2 ++ p2.2, r.2⟩)

/-- The full day loop over a calendar segment: each element pairs a date
with the orders ingested that day. -/
def runDays (fundNavDict : Fin n → ℕ → Option ℚ) (fundNavDf : ℕ → Fin n → ℚ) :
    EngineState n → List (ℕ × List (Order n)) →
    Except Err (EngineState n × List (ℕ × DayLog n))
  | s, [] => .ok (s, [])
  | s, (date, orders) :: rest =>
    match runDay fundNavDict fundNavDf s date orders with
    | .error e => .error e
    | .ok r =>
      match runDays fundNavDict fundNavDf r.1 rest with
      | .error e => .error e
      | .ok r2 => .ok (r2.1, (date, r.2) :: r2.2)

/-- `units_df.loc[date, i]`: the most recently recorded units row for `date`,
evaluated at instrument `i`. -/
def recordedUnits (s : EngineState n) (date : ℕ) (i : Fin n) : Option ℚ :=
  (s.unitsDf.find? fun p => p.1 == date).map fun p => p.2 i

/-- `costs_df.loc[date, i]`. -/
def recordedCosts (s : EngineState n) (date : ℕ) (i : Fin n) : Option ℚ :=
  (s.costsDf.find? fun p => p.1 == date).map fun p => p.2 i

/-- Net unit flow into instrument `i` from a list of applied confirmed
orders: subscription units count positively, redemption units negatively. -/
def netUnits (l : List (ConfirmedOrder n)) (i : Fin n) : ℚ :=
  (l.map fun o =>
    if o.fundCode = i then
      match o.tradeType with
      | .subscribe => o.units
      | .redeem => -o.units
    else 0).sum

/-- A fresh engine state over given current series (empty order book, empty
settlement queue, empty history), as after `_initialize_portfolio` but with
the working series generalized. -/
def mkState (u c : Fin n → ℚ) (currentUnits currentNav currentUnitNav : ℚ) :
    EngineState n :=
  ⟨0, u, c, currentUnits, currentNav, currentUnitNav, 0, [], fun _ => [],
   [], [], [], []⟩

/-- The unit delta that settling an order moves through `_apply_order`:
the subscription units `process_trade` computes at NAV `nav`, or the
negated requested units for a redemption. -/
def orderUnitsDelta (o : Order n) (nav : ℚ) : ℚ :=
  match o.tradeType with
  | .subscribe => subscriptionUnits (o.amount.getD 0) o.flatFee nav o.pctFee
  | .redeem => -(o.units.getD 0)

/-- The cost delta that settling an order moves through `_apply_order`:
the cash amount for a subscription, the negated proceeds for a redemption
(computed by `process_trade` when the order carries no amount). -/
def orderCostDelta (o : Order n) (nav : ℚ) : ℚ :=
  match o.tradeType with
  | .subscribe => o.amount.getD 0
  | .redeem =>
    -(match o.amount with
      | some a => a
      | none => redemptionProceeds (o.units.getD 0) nav o.pctFee o.flatFee)

/-- The units row recorded for `date` at instrument `i` after running the
day loop, `none` when the run raised. -/
def runRecordedUnits (fundNavDict : Fin n → ℕ → Option ℚ)
    (fundNavDf : ℕ → Fin n → ℚ) (s : EngineState n)
    (days : List (ℕ × List (Order n))) (date : ℕ) (i : Fin n) : Option ℚ :=
  match runDays fundNavDict fundNavDf s days with
  | .error _ => none
  | .ok r => recordedUnits r.1 date i

/-- The costs row recorded for `date` at instrument `i` after running the
day loop, `none` when the run raised. -/
def runRecordedCosts (fundNavDict : Fin n → ℕ → Option ℚ)
    (fundNavDf : ℕ → Fin n → ℚ) (s : EngineState n)
    (days : List (ℕ × List (Order n))) (date : ℕ) (i : Fin n) : Option ℚ :=
  match runDays fundNavDict fundNavDf s days with
  | .error _ => none
  | .ok r => recordedCosts r.1 date i

/-- How many orders are still pending in the order book after a run. -/
def runOrderBookSize (fundNavDict : Fin n → ℕ → Option ℚ)
    (fundNavDf : ℕ → Fin n → ℚ) (s : EngineState n)
    (days : List (ℕ × List (Order n))) : Option ℕ :=
  match runDays fundNavDict fundNavDf s days with
  | .error _ => none
  | .ok r => some r.1.orderBook.length

/-- Net confirmed unit flow (subscriptions minus redemptions) applied to
instrument `i` on `date` during a run, read off the day logs. -/
def runDayNetUnits (fundNavDict : Fin n → ℕ → Option ℚ)
    (fundNavDf : ℕ → Fin n → ℚ) (s : EngineState n)
    (days : List (ℕ × List (Order n))) (date : ℕ) (i : Fin n) : Option ℚ :=
  match runDays fundNavDict fundNavDf s days with
  | .error _ => none
  | .ok r => (r.2.find? fun p => p.1 == date).map fun p => netUnits p.2.applied i

/-- Whether every reconciliation-clamp event recorded for instrument `i` on
`date` during a run was a trivial rewrite (the holding written equals the
holding already there); `false` when the run raised or `date` was not run. -/
def runDayClampsTrivial (fundNavDict : Fin n → ℕ → Option ℚ)
    (fundNavDf : ℕ → Fin n → ℚ) (s : EngineState n)
    (days : List (ℕ × List (Order n))) (date : ℕ) (i : Fin n) : Bool :=
  match runDays fundNavDict fundNavDf s days with
  | .error _ => false
  | .ok r =>
    match r.2.find? fun p => p.1 == date with
    | none => false
    | some p =>
      p.2.clamps.all fun e =>
        !(e.fundCode == i) || (e.oldHolding == e.newHolding)

/-! ## Weight-based trade generation (`WeightBasedBacktest`) -/

/-- 赎回类型 of `WeightBasedBacktest.backtest`: `'today'` 表示当日赎回
(same-day redemption timing), `'yesterday'` 表示次日赎回 (next-day
redemption timing). -/
inductive RedemptionType where
  | today
  | yesterday
deriving DecidableEq, Repr

/-- The per-instrument redemption quantity of `generate_redemptions`
(line 477): `units_series - current_nav * target_weight / nav_date`, where
`nav_date = fund_nav_df.loc[date]` for the `date` argument the caller
passes. -/
def generateRedemptionUnits (units currentNav targetWeight navAtDate : ℚ) : ℚ :=
  units - currentNav * targetWeight / navAtDate

/-- The per-instrument subscription amount of `generate_subscriptions`
(line 498): `current_nav * target_weight - units_series * nav_date`. -/
def generateSubscriptionAmount (units currentNav targetWeight navAtDate : ℚ) : ℚ :=
  currentNav * targetWeight - units * navAtDate

/-- The redemption leg of `generate_trades_based_weights` (lines 429-489)
projected to one instrument.  Arguments describe the engine's state on the
current date `date`:
* `lastTradeDate` — `self.last_trade_date` (calendar position of the last
  weight-table date);
* `dateInTable d` — whether any weight-table row carries date `d`
  (`d in trade_info['交易日期'].unique()`);
* `weightOn d` — this instrument's target weight on date `d`, `0` when the
  instrument has no row for `d` (the `reindex(...).fillna(0.0)`);
* `navDf d` — this instrument's forward-filled NAV on date `d`;
* `units`, `currentNav` — current holdings of the instrument and the
  portfolio's current total NAV.

Returns `some (redemptionUnits, tradeDate, confirmDate)` when a redemption
instruction is generated for the instrument (`redemption_units > 0`), and
`none` otherwise.  Under `'yesterday'` the weights switching in on
`switch_date = date + 1` are traded on `date` and confirm on
`switch_date`; under `'today'` the weights of `date` itself are traded on
`date` with same-day confirmation (`generate_redemptions(date, target_date,
...)` passes `target_date` as the confirm date). -/
def redemptionLeg (rt : RedemptionType) (date lastTradeDate : ℕ)
    (dateInTable : ℕ → Bool) (weightOn : ℕ → ℚ) (navDf : ℕ → ℚ)
    (units currentNav : ℚ) : Option (ℚ × ℕ × ℕ) :=
  match rt with
  | .yesterday =>
    if date ≥ lastTradeDate then none
    else
      let switchDate := date + 1
      if !dateInTable switchDate then none
      else
        let r := generateRedemptionUnits units currentNav (weightOn switchDate)
          (navDf date)
        if r > 0 then some (r, date, switchDate) else none
  | .today =>
    if date > lastTradeDate then none
    else if !dateInTable date then none
    else
      let r := generateRedemptionUnits units currentNav (weightOn date)
        (navDf date)
      if r > 0 then some (r, date, date) else none

/-- The subscription leg of `generate_trades_based_weights` projected to one
instrument, with the same argument conventions as `redemptionLeg`.  Under
`'yesterday'` the subscription is dated `switch_date = date + 1` and
confirms on `date + 2`; under `'today'` it is dated `date` and confirms on
`date + 1`.  The NAV used is the one of the subscription's own trade date. -/
def subscriptionLeg (rt : RedemptionType) (date lastTradeDate : ℕ)
    (dateInTable : ℕ → Bool) (weightOn : ℕ → ℚ) (navDf : ℕ → ℚ)
    (units currentNav : ℚ) : Option (ℚ × ℕ × ℕ) :=
  match rt with
  | .yesterday =>
    if date ≥ lastTradeDate then none
    else
      let switchDate := date + 1
      if !dateInTable switchDate then none
      else
        let a := generateSubscriptionAmount units currentNav
          (weightOn switchDate) (navDf switchDate)
        if a > 0 then some (a, switchDate, date + 2) else none
  | .today =>
    if date > lastTradeDate then none
    else if !dateInTable date then none
    else
      let a := generateSubscriptionAmount units currentNav (weightOn date)
        (navDf date)
      if a > 0 then some (a, date, date + 1) else none

/-- The redemption quantity the specification prescribes, following the
words of the claim: current value `current_units * nav_on_switch_date`
against target value `current_total_NAV * target_weight`, the excess
expressed as current holdings less the implied target units.  (Spec-side
definition, for comparison with `generateRedemptionUnits`.) -/
def claimRedemptionUnits (units currentNav targetWeight navOnSwitchDate : ℚ) : ℚ :=
  units - currentNav * targetWeight / navOnSwitchDate

/-- `_generate_initial_trades` (lines 511-522) projected to one instrument
of the first rebalance event: `current_nav` is set to the caller-supplied
`initial_navs` and `generate_subscriptions` runs against zero holdings, so
the instrument receives a subscription of `initial_navs * weight` exactly
when that is positive; no redemption leg exists. -/
def initialTradeAmount (initialNavs weight : ℚ) : Option ℚ :=
  let a := generateSubscriptionAmount 0 initialNavs weight 1
  if a > 0 then some a else none

/-! ## Performance evaluator (`PortfolioEvaluator`) -/

/-- Tail of the running maximum (`period_nav.expanding().max()`). -/
def expandingMaxAux (m : ℚ) : List ℚ → List ℚ
  | [] => []
  | x :: xs => max m x :: expandingMaxAux (max m x) xs

/-- `period_nav.expanding().max()` over a list. -/
def expandingMax : List ℚ → List ℚ
  | [] => []
  | x :: xs => x :: expandingMaxAux x xs

/-- `drawdown = ((period_nav - rolling_max) / rolling_max) * 100` (line 578). -/
def drawdownSeries (nav : List ℚ) : List ℚ :=
  List.zipWith (fun x m => (x - m) / m * 100) nav (expandingMax nav)

/-- First index achieving the minimum (`Series.idxmin`), accumulator form. -/
def argminFirstAux (bestVal : ℚ) (bestIdx k : ℕ) : List ℚ → ℕ
  | [] => bestIdx
  | x :: xs =>
    if x < bestVal then argminFirstAux x k (k + 1) xs
    else argminFirstAux bestVal bestIdx (k + 1) xs

/-- `Series.idxmin`: the first index achieving the minimum. -/
def argminFirst : List ℚ → Option ℕ
  | [] => none
  | x :: xs => some (argminFirstAux x 0 1 xs)

/-- First index achieving the maximum (`Series.idxmax`), accumulator form. -/
def argmaxFirstAux (bestVal : ℚ) (bestIdx k : ℕ) : List ℚ → ℕ
  | [] => bestIdx
  | x :: xs =>
    if x > bestVal then argmaxFirstAux x k (k + 1) xs
    else argmaxFirstAux bestVal bestIdx (k + 1) xs

/-- `Series.idxmax`: the first index achieving the maximum. -/
def argmaxFirst : List ℚ → Option ℕ
  | [] => none
  | x :: xs => some (argmaxFirstAux x 0 1 xs)

/-- The drawdown analysis of `_calculate_period_metrics` (lines 576-582),
with dates identified with positions in the period:
`max_dd = drawdown.min()`, `max_dd_end = drawdown.idxmin()`,
`max_dd_start = period_nav[:max_dd_end].idxmax()` (inclusive label slice).
Returns `(max_dd, max_dd_start, max_dd_end)`. -/
def maxDrawdownStats (nav : List ℚ) : Option (ℚ × ℕ × ℕ) :=
  let dd := drawdownSeries nav
  match argminFirst dd with
  | none => none
  | some ddEnd =>
    match argmaxFirst (nav.take (ddEnd + 1)) with
    | none => none
    | some ddStart => some (dd.getD ddEnd 0, ddStart, ddEnd)

/-- `nav_series.resample(freq).last()`: the series is chronological, so each
period's rows are consecutive; keep the last value of every run of entries
sharing a period tag. -/
def resampleLast : List (ℕ × ℚ) → List ℚ
  | [] => []
  | [(_, v)] => [v]
  | (m, v) :: (m2, v2) :: rest =>
    if m = m2 then resampleLast ((m2, v2) :: rest)
    else v :: resampleLast ((m2, v2) :: rest)

/-- `period_nav.pct_change() * 100` from a given previous value. -/
def pctChangeFrom (prev : ℚ) : List ℚ → List ℚ
  | [] => []
  | x :: xs => (x / prev - 1) * 100 :: pctChangeFrom x xs

/-- `_calculate_returns` (lines 663-698) for one series: resample to
period-end values, percentage change per period, and the first period's
return overwritten with `(period_nav.iloc[0] / nav_start - 1) * 100`
against the true series-start value (lines 680, 688).  Each series entry is
`(period tag, value)`. -/
def calcPeriodReturns (s : List (ℕ × ℚ)) : List ℚ :=
  match s with
  | [] => []
  | (_, v0) :: _ =>
    match resampleLast s with
    | [] => []
    | r0 :: rest => (r0 / v0 - 1) * 100 :: pctChangeFrom r0 rest

/-! ## Helper lemmas -/

theorem redemptionError_silent {u h : ℚ} (h1 : |u - h| ≤ 10) :
    redemptionError u h = .ok (some u, false) := by
  have h2 := abs_le.mp h1
  unfold redemptionError
  rw [if_neg (by linarith [h2.2]), if_neg (by linarith [h2.2]), if_pos h1]

theorem redemptionError_warn {u h : ℚ} (h1 : u > h + 10) (h2 : ¬u > h + 1000) :
    redemptionError u h = .ok (some u, true) := by
  unfold redemptionError
  rw [if_neg h2, if_pos h1]

theorem redemptionError_raise {u h : ℚ} (h1 : u > h + 1000) :
    redemptionError u h = .error .redemptionExceedsHoldings := by
  unfold redemptionError
  rw [if_pos h1]

theorem redemptionError_skip {u h : ℚ} (h1 : u < h - 10) :
    redemptionError u h = .ok (none, false) := by
  have habs : ¬|u - h| ≤ 10 := by
    have h2 : h - u ≤ |u - h| := by
      rw [abs_sub_comm]; exact le_abs_self (h - u)
    intro hc; linarith
  unfold redemptionError
  rw [if_neg (by intro hc; linarith), if_neg (by intro hc; linarith),
    if_neg habs]

@[simp]
theorem recordOrder_unitsSeries (s : EngineState n) (f : Fin n) (a : ℚ)
    (t : TradeType) (cd : ℕ) (u dp : ℚ) :
    (recordOrder s f a t cd u dp).unitsSeries = s.unitsSeries := rfl

@[simp]
theorem recordOrder_costsSeries (s : EngineState n) (f : Fin n) (a : ℚ)
    (t : TradeType) (cd : ℕ) (u dp : ℚ) :
    (recordOrder s f a t cd u dp).costsSeries = s.costsSeries := rfl

theorem recordOrder_confirmOrders_at (s : EngineState n) (f : Fin n) (a : ℚ)
    (t : TradeType) (cd : ℕ) (u dp : ℚ) :
    (recordOrder s f a t cd u dp).confirmOrders
        (if s.nowadays > cd then s.nowadays else cd) =
      s.confirmOrders (if s.nowadays > cd then s.nowadays else cd) ++
        [⟨f, a, t, if s.nowadays > cd then s.nowadays else cd, u, dp⟩] := by
  unfold recordOrder
  simp

/-- Reduction of `process_trade` on a redemption, given the outcome of
`redemption_error`. -/
theorem processTrade_redeem (fundNavDict : Fin n → ℕ → Option ℚ)
    (s : EngineState n) (o : Order n) (u nav : ℚ) (newH? : Option ℚ)
    (w : Bool) (htype : o.tradeType = .redeem) (hunits : o.units = some u)
    (hnav : fundNavDict o.fundCode s.nowadays = some nav)
    (hre : redemptionError u (s.unitsSeries o.fundCode) = .ok (newH?, w)) :
    processTrade fundNavDict s o =
      .ok
        (recordOrder
          (match newH? with
           | some nh =>
             { s with
               unitsSeries := Function.update s.unitsSeries o.fundCode nh }
           | none => s)
          o.fundCode
          (match o.amount with
           | some a => a
           | none => redemptionProceeds u nav o.pctFee o.flatFee)
          .redeem o.confirmDate u (u * nav / s.currentUnitNav),
         true,
         (match newH? with
          | some nh => [⟨o.fundCode, s.unitsSeries o.fundCode, nh, w⟩]
          | none => [])) := by
  cases newH? with
  | none => simp only [processTrade, hnav, htype, hunits, hre]
  | some nh => simp only [processTrade, hnav, htype, hunits, hre]

/-- Reduction of `process_trade` on a subscription. -/
theorem processTrade_subscribe (fundNavDict : Fin n → ℕ → Option ℚ)
    (s : EngineState n) (o : Order n) (a nav : ℚ)
    (htype : o.tradeType = .subscribe) (hamount : o.amount = some a)
    (hnav : fundNavDict o.fundCode s.nowadays = some nav) :
    processTrade fundNavDict s o =
      .ok
        (recordOrder s o.fundCode a .subscribe o.confirmDate
          (subscriptionUnits a o.flatFee nav o.pctFee)
          (a / s.currentUnitNav),
         true, []) := by
  simp only [processTrade, hnav, htype, hamount]

/-- `process_trade` on a missing NAV: rejected without touching the state
and without marking the order handled. -/
theorem processTrade_noNav (fundNavDict : Fin n → ℕ → Option ℚ)
    (s : EngineState n) (o : Order n)
    (hnav : fundNavDict o.fundCode s.nowadays = none) :
    processTrade fundNavDict s o = .ok (s, false, []) := by
  simp only [processTrade, hnav]

/-- Reduction of `process_trade` on a redemption whose `redemption_error`
raises: the exception propagates. -/
theorem processTrade_redeem_error (fundNavDict : Fin n → ℕ → Option ℚ)
    (s : EngineState n) (o : Order n) (u nav : ℚ) (e : Err)
    (htype : o.tradeType = .redeem) (hunits : o.units = some u)
    (hnav : fundNavDict o.fundCode s.nowadays = some nav)
    (hre : redemptionError u (s.unitsSeries o.fundCode) = .error e) :
    processTrade fundNavDict s o = .error e := by
  simp only [processTrade, hnav, htype, hunits, hre]

/-- Over a run of entries sharing one period tag, `resampleLast` keeps
exactly the last value. -/
theorem resampleLast_const_tag (m : ℕ) :
    ∀ (rest : List (ℕ × ℚ)) (v : ℚ), (∀ p ∈ rest, p.1 = m) →
      resampleLast ((m, v) :: rest) = [(rest.getLastD (m, v)).2] := by
  intro rest
  induction rest with
  | nil => intro v _; rfl
  | cons hd tl ih =>
    intro v hmem
    obtain ⟨m2, v2⟩ := hd
    have hm2 : m2 = m := hmem (m2, v2) (by simp)
    subst hm2
    rw [resampleLast, if_pos rfl, List.getLastD_cons]
    exact ih v2 fun p hp => hmem p (List.mem_cons_of_mem _ hp)

theorem netUnits_nil (i : Fin n) : netUnits ([] : List (ConfirmedOrder n)) i = 0 :=
  rfl

theorem netUnits_cons (o : ConfirmedOrder n) (l : List (ConfirmedOrder n))
    (i : Fin n) :
    netUnits (o :: l) i =
      (if o.fundCode = i then
        match o.tradeType with
        | .subscribe => o.units
        | .redeem => -o.units
      else 0) + netUnits l i := by
  simp [netUnits]

theorem netUnits_append (a b : List (ConfirmedOrder n)) (i : Fin n) :
    netUnits (a ++ b) i = netUnits a i + netUnits b i := by
  simp [netUnits]

theorem applyOrder_unitsSeries (s : EngineState n) (o : ConfirmedOrder n)
    (i : Fin n) :
    (applyOrder s o).unitsSeries i =
      s.unitsSeries i +
        (if o.fundCode = i then
          match o.tradeType with
          | .subscribe => o.units
          | .redeem => -o.units
        else 0) := by
  unfold applyOrder
  cases o.tradeType with
  | subscribe =>
    by_cases hfi : o.fundCode = i
    · subst hfi; simp [Function.update_same]
    · simp [Function.update_apply, if_neg (Ne.symm hfi), hfi]
  | redeem =>
    by_cases hfi : o.fundCode = i
    · subst hfi; simp [Function.update_same]; ring
    · simp [Function.update_apply, if_neg (Ne.symm hfi), hfi]

theorem applyOrder_confirmOrders (s : EngineState n) (o : ConfirmedOrder n) :
    (applyOrder s o).confirmOrders = s.confirmOrders := by
  unfold applyOrder
  cases o.tradeType <;> rfl

theorem applyOrder_orderBook (s : EngineState n) (o : ConfirmedOrder n) :
    (applyOrder s o).orderBook = s.orderBook := by
  unfold applyOrder
  cases o.tradeType <;> rfl

theorem foldl_applyOrder_unitsSeries (i : Fin n) :
    ∀ (l : List (ConfirmedOrder n)) (s : EngineState n),
      (l.foldl applyOrder s).unitsSeries i = s.unitsSeries i + netUnits l i := by
  intro l
  induction l with
  | nil => intro s; simp [netUnits]
  | cons o rest ih =>
    intro s
    rw [List.foldl_cons, ih, applyOrder_unitsSeries, netUnits_cons]
    ring

theorem updateConfirmedOrders_unitsSeries (s : EngineState n) (d : ℕ)
    (i : Fin n) :
    (updateConfirmedOrders s d).1.unitsSeries i =
      s.unitsSeries i + netUnits (s.confirmOrders d) i :=
  foldl_applyOrder_unitsSeries i (s.confirmOrders d) s

theorem updateConfirmedOrders_applied (s : EngineState n) (d : ℕ) :
    (updateConfirmedOrders s d).2 = s.confirmOrders d := rfl

theorem updatePortfolioStatus_unitsSeries (fundNavDf : ℕ → Fin n → ℚ)
    (s : EngineState n) (d : ℕ) (i : Fin n) :
    (updatePortfolioStatus fundNavDf s d).1.unitsSeries i =
      dustClamp ((updateConfirmedOrders s d).1.unitsSeries i) := by
  unfold updatePortfolioStatus
  simp only [apply_ite (EngineState.unitsSeries), ite_self]

theorem updatePortfolioStatus_applied (fundNavDf : ℕ → Fin n → ℚ)
    (s : EngineState n) (d : ℕ) :
    (updatePortfolioStatus fundNavDf s d).2 = s.confirmOrders d := rfl

theorem appendOrders_unitsSeries (s : EngineState n) (l : List (Order n)) :
    (appendOrders s l).unitsSeries = s.unitsSeries := rfl

theorem appendOrders_confirmOrders (s : EngineState n) (l : List (Order n)) :
    (appendOrders s l).confirmOrders = s.confirmOrders := rfl

theorem recordOrder_confirmOrders_ne (s : EngineState n) (f : Fin n) (a : ℚ)
    (t : TradeType) (cd : ℕ) (u dp : ℚ) (d : ℕ)
    (hd : d ≠ (if s.nowadays > cd then s.nowadays else cd)) :
    (recordOrder s f a t cd u dp).confirmOrders d = s.confirmOrders d := by
  unfold recordOrder
  simp only [if_neg hd]

/-- `process_trade` never moves the holdings of instrument `i` when every
clamp event it emits for `i` is a trivial rewrite. -/
theorem processTrade_unitsSeries (fundNavDict : Fin n → ℕ → Option ℚ)
    (s : EngineState n) (o : Order n)
    (r : EngineState n × Bool × List (ClampEvent n)) (i : Fin n)
    (hok : processTrade fundNavDict s o = .ok r)
    (htriv : ∀ e ∈ r.2.2, e.fundCode = i → e.oldHolding = e.newHolding) :
    r.1.unitsSeries i = s.unitsSeries i := by
  cases hn : fundNavDict o.fundCode s.nowadays with
  | none =>
    rw [processTrade_noNav fundNavDict s o hn] at hok
    simp only [Except.ok.injEq] at hok
    rw [← hok]
  | some nav =>
    cases hty : o.tradeType with
    | subscribe =>
      cases ham : o.amount with
      | none => simp [processTrade, hn, hty, ham] at hok
      | some a =>
        rw [processTrade_subscribe fundNavDict s o a nav hty ham hn] at hok
        simp only [Except.ok.injEq] at hok
        rw [← hok]
        rfl
    | redeem =>
      cases hu : o.units with
      | none => simp [processTrade, hn, hty, hu] at hok
      | some u =>
        cases hre : redemptionError u (s.unitsSeries o.fundCode) with
        | error e =>
          rw [processTrade_redeem_error fundNavDict s o u nav e hty hu hn hre]
            at hok
          simp at hok
        | ok p =>
          obtain ⟨nh?, w⟩ := p
          rw [processTrade_redeem fundNavDict s o u nav nh? w hty hu hn hre]
            at hok
          cases nh? with
          | none =>
            simp only [Except.ok.injEq] at hok
            rw [← hok]
            rfl
          | some nh =>
            simp only [Except.ok.injEq] at hok
            rw [← hok]
            have htv : s.unitsSeries o.fundCode = nh → o.fundCode = i →
                s.unitsSeries o.fundCode = nh := fun h _ => h
            by_cases hfi : o.fundCode = i
            · have heq : s.unitsSeries o.fundCode = nh := by
                have := htriv ⟨o.fundCode, s.unitsSeries o.fundCode, nh, w⟩
                  (by rw [← hok]; simp) hfi
                exact this
              subst hfi
              simp [recordOrder, Function.update_same, ← heq]
            · simp [recordOrder, Function.update_apply, if_neg (Ne.symm hfi),
                hfi]

/-- The loop of `handle_order` never moves the holdings of instrument `i`
when every clamp event emitted for `i` is a trivial rewrite; it also leaves
the order-book field untouched (popping happens afterwards). -/
theorem processOrders_unitsSeries (fundNavDict : Fin n → ℕ → Option ℚ)
    (i : Fin n) :
    ∀ (l : List (ℕ × Order n)) (s : EngineState n)
      (r : EngineState n × List ℕ × List (ClampEvent n)),
      processOrders fundNavDict s l = .ok r →
      (∀ e ∈ r.2.2, e.fundCode = i → e.oldHolding = e.newHolding) →
      r.1.unitsSeries i = s.unitsSeries i := by
  intro l
  induction l with
  | nil =>
    intro s r hok _
    simp only [processOrders, Except.ok.injEq] at hok
    rw [← hok]
  | cons p rest ih =>
    intro s r hok htriv
    obtain ⟨idx, o⟩ := p
    rw [processOrders] at hok
    cases hpt : processTrade fundNavDict s o with
    | error e => simp only [hpt] at hok; exact absurd hok (by simp)
    | ok r1 =>
      simp only [hpt] at hok
      cases hpo : processOrders fundNavDict r1.1 rest with
      | error e => simp only [hpo] at hok; exact absurd hok (by simp)
      | ok r2 =>
        simp only [hpo] at hok
        simp only [Except.ok.injEq] at hok
        have hmem : ∀ e ∈ r1.2.2 ++ r2.2.2,
            e.fundCode = i → e.oldHolding = e.newHolding := by
          intro e he
          apply htriv
          rw [← hok]
          simpa using he
        have h1 : r1.1.unitsSeries i = s.unitsSeries i :=
          processTrade_unitsSeries fundNavDict s o r1 i hpt fun e he =>
            hmem e (List.mem_append_left _ he)
        have h2 : r2.1.unitsSeries i = r1.1.unitsSeries i :=
          ih r1.1 r2 hpo fun e he => hmem e (List.mem_append_right _ he)
        rw [← hok]
        simp only [h2, h1]

theorem handleOrder_unitsSeries (fundNavDict : Fin n → ℕ → Option ℚ)
    (s : EngineState n) (r : EngineState n × List (ClampEvent n))
    (i : Fin n) (hok : handleOrder fundNavDict s = .ok r)
    (htriv : ∀ e ∈ r.2, e.fundCode = i → e.oldHolding = e.newHolding) :
    r.1.unitsSeries i = s.unitsSeries i := by
  unfold handleOrder at hok
  cases hpo : processOrders fundNavDict s s.orderBook with
  | error e => simp only [hpo] at hok; exact absurd hok (by simp)
  | ok r1 =>
    simp only [hpo] at hok
    simp only [Except.ok.injEq] at hok
    have := processOrders_unitsSeries fundNavDict i s.orderBook s r1 hpo
      (fun e he => htriv e (by rw [← hok]; exact he))
    rw [← hok]
    exact this

theorem recordedUnits_updatePortfolioRecords (fundNavDf : ℕ → Fin n → ℚ)
    (st : EngineState n) (d : ℕ) (i : Fin n) :
    recordedUnits (updatePortfolioRecords fundNavDf st d) d i =
      some (st.unitsSeries i) := by
  simp [recordedUnits, updatePortfolioRecords, List.find?]

theorem recordedCosts_updatePortfolioRecords (fundNavDf : ℕ → Fin n → ℚ)
    (st : EngineState n) (d : ℕ) (i : Fin n) :
    recordedCosts (updatePortfolioRecords fundNavDf st d) d i =
      some (st.costsSeries i) := by
  simp [recordedCosts, updatePortfolioRecords, List.find?]

/-- Conservation of one engine day, given that the day succeeded, the dust
clamp did not move instrument `i`, and every reconciliation-clamp event for
`i` was a trivial rewrite: the units row recorded for the day equals the
working units at the start of the day plus the net units of the confirmed
orders applied during the day. -/
theorem runDay_conservation {n : ℕ} (fundNavDict : Fin n → ℕ → Option ℚ)
    (fundNavDf : ℕ → Fin n → ℚ) (s : EngineState n) (date : ℕ)
    (orders : List (Order n)) (i : Fin n) (s2 : EngineState n) (log : DayLog n)
    (hok : runDay fundNavDict fundNavDf s date orders = .ok (s2, log))
    (hdust :
      dustClamp
        ((updateConfirmedOrders { s with nowadays := date } date).1.unitsSeries
          i) =
      (updateConfirmedOrders { s with nowadays := date } date).1.unitsSeries i)
    (hclamp : ∀ e ∈ log.clamps, e.fundCode = i → e.oldHolding = e.newHolding) :
    recordedUnits s2 date i = some (s.unitsSeries i + netUnits log.applied i) := by
  simp only [runDay] at hok
  split at hok
  · exact absurd hok (by simp)
  case _ r heq =>
    simp only [Except.ok.injEq, Prod.mk.injEq] at hok
    obtain ⟨rfl, rfl⟩ := hok
    rw [recordedUnits_updatePortfolioRecords, updateConfirmedOrders_unitsSeries]
    have hr1 : r.1.unitsSeries i =
        (appendOrders
          (updatePortfolioStatus fundNavDf { s with nowadays := date } date).1
          orders).unitsSeries i := by
      split at heq
      · simp only [Except.ok.injEq] at heq
        rw [← heq]
      · exact handleOrder_unitsSeries fundNavDict _ r i heq fun e he hf =>
          hclamp e he hf
    rw [updateConfirmedOrders_applied, updatePortfolioStatus_applied,
      netUnits_append]
    rw [hr1, appendOrders_unitsSeries, updatePortfolioStatus_unitsSeries,
      hdust, updateConfirmedOrders_unitsSeries]
    dsimp only
    congr 1
    ring

/-! ## Claims -/

/-- **C3 counterexample.** The conservation invariant fails on the code:
one fund, NAV `1` throughout; day `0` settles a subscription of `5` units
(recorded units `5`); on day `1` a redemption request of `12` units with
confirm date `2` arrives — the reconciliation clamp overwrites the holding
to `12` at processing time, so day `1` records `12` units although the net
confirmed flow of day `1` is `0`: `12 ≠ 5 + 0`. -/
theorem units_conservation_counterexample :
    runRecordedUnits (fun _ _ => some 1) (fun _ _ => 1)
        (mkState (fun _ => 0) (fun _ => 0) 0 0 1 : EngineState 1)
        [(0, [⟨0, some 5, 0, 0, .subscribe, 0, none⟩]),
         (1, [⟨0, none, 0, 0, .redeem, 2, some 12⟩])] 0 0 = some 5 ∧
    runRecordedUnits (fun _ _ => some 1) (fun _ _ => 1)
        (mkState (fun _ => 0) (fun _ => 0) 0 0 1 : EngineState 1)
        [(0, [⟨0, some 5, 0, 0, .subscribe, 0, none⟩]),
         (1, [⟨0, none, 0, 0, .redeem, 2, some 12⟩])] 1 0 = some 12 ∧
    runDayNetUnits (fun _ _ => some 1) (fun _ _ => 1)
        (mkState (fun _ => 0) (fun _ => 0) 0 0 1 : EngineState 1)
        [(0, [⟨0, some 5, 0, 0, .subscribe, 0, none⟩]),
         (1, [⟨0, none, 0, 0, .redeem, 2, some 12⟩])] 1 0 = some 0 ∧
    (12 : ℚ) ≠ 5 + 0 := by
  refine ⟨?_, ?_, ?_, by norm_num⟩ <;>
    norm_num [runRecordedUnits, runDayNetUnits, runDays, runDay,
      updatePortfolioStatus, updateConfirmedOrders, updatePortfolioRecords,
      appendOrders, handleOrder, processOrders, processTrade, recordOrder,
      applyOrder, dustClamp, mkState, redemptionError, subscriptionUnits,
      redemptionProceeds, recordedUnits, netUnits, Fin.sum_univ_one,
      List.find?, Function.update, show ((1 : ℕ) == 0) = false from rfl,
      show ((0 : ℕ) == 1) = false from rfl]

/-- **C3 (amended).** Conservation holds away from the engine's two
documented holding adjustments: for a day of the loop on which, for
instrument `i`, the `1e-4` dust clamp does not move the holding and every
reconciliation-clamp event is a trivial rewrite, the units recorded for the
date equal the previous day's units (the working series at the start of the
day, which `_update_portfolio_records` wrote as the previous date's row)
plus the confirmed subscription units minus the confirmed redemption units
applied that day. -/
theorem units_conservation_without_adjustments {n : ℕ}
    (fundNavDict : Fin n → ℕ → Option ℚ) (fundNavDf : ℕ → Fin n → ℚ)
    (s : EngineState n) (date : ℕ) (orders : List (Order n)) (i : Fin n)
    (hdust :
      dustClamp
        ((updateConfirmedOrders { s with nowadays := date } date).1.unitsSeries
          i) =
      (updateConfirmedOrders { s with nowadays := date } date).1.unitsSeries i)
    (hclamp : runDayClampsTrivial fundNavDict fundNavDf s [(date, orders)]
      date i = true) :
    runRecordedUnits fundNavDict fundNavDf s [(date, orders)] date i =
      (runDayNetUnits fundNavDict fundNavDf s [(date, orders)] date i).map
        fun d => s.unitsSeries i + d := by
  unfold runRecordedUnits runDayNetUnits
  unfold runDayClampsTrivial at hclamp
  rw [runDays] at hclamp ⊢
  cases hrd : runDay fundNavDict fundNavDf s date orders with
  | error e =>
    rw [hrd] at hclamp
    exact absurd hclamp (by simp)
  | ok r =>
    simp only [hrd, runDays] at hclamp ⊢
    simp only [List.find?, beq_self_eq_true, List.all_eq_true, Bool.or_eq_true,
      Bool.not_eq_eq_eq_not, Bool.not_true, beq_eq_false_iff_ne, ne_eq,
      beq_iff_eq] at hclamp
    have htriv : ∀ e ∈ r.2.clamps, e.fundCode = i →
        e.oldHolding = e.newHolding := by
      intro e he hf
      rcases hclamp e he with h | h
      · exact absurd hf h
      · exact h
    have := runDay_conservation fundNavDict fundNavDf s date orders i r.1 r.2
      hrd hdust htriv
    simp only [List.find?, beq_self_eq_true, Option.map_some]
    exact this

/-- Witness for the amended C3: one fund, a subscription of `5` settled
same-day on day `0`; the recorded row equals the starting `0` units plus
the net confirmed flow of `5`. -/
theorem units_conservation_without_adjustments_witness :
    runRecordedUnits (fun _ _ => some 1) (fun _ _ => 1)
        (mkState (fun _ => 0) (fun _ => 0) 0 0 1 : EngineState 1)
        [(0, [⟨0, some 5, 0, 0, .subscribe, 0, none⟩])] 0 0 =
      (runDayNetUnits (fun _ _ => some 1) (fun _ _ => 1)
        (mkState (fun _ => 0) (fun _ => 0) 0 0 1 : EngineState 1)
        [(0, [⟨0, some 5, 0, 0, .subscribe, 0, none⟩])] 0 0).map
        fun d =>
          (mkState (fun _ => (0 : ℚ)) (fun _ => 0) 0 0 1 :
            EngineState 1).unitsSeries 0 + d := by
  apply units_conservation_without_adjustments
  · norm_num [updateConfirmedOrders, applyOrder, dustClamp, mkState]
  · norm_num [runDayClampsTrivial, runDays, runDay, updatePortfolioStatus,
      updateConfirmedOrders, updatePortfolioRecords, appendOrders,
      handleOrder, processOrders, processTrade, recordOrder, applyOrder,
      dustClamp, mkState, redemptionError, subscriptionUnits,
      redemptionProceeds, Fin.sum_univ_one, List.find?, Function.update]

/-- **C4 counterexample.** A redemption inside the tolerance-clamp band
changes the position ledger already at its trade date `D`: starting from a
holding of `100` units, a redemption of `105` units with confirm date
`D + 2` leaves `105` recorded at `D` (the clamp rewrote the holding),
whereas the identical run without the order records `100` at `D` — the
ledger at `D` is not unchanged by the order. -/
theorem settlement_lag_counterexample :
    runRecordedUnits (fun _ _ => some 1) (fun _ _ => 1)
        (mkState (fun _ => 100) (fun _ => 0) 0 0 1 : EngineState 1)
        [(0, [⟨0, none, 0, 0, .redeem, 2, some 105⟩]), (1, []), (2, [])] 0 0 =
      some 105 ∧
    runRecordedUnits (fun _ _ => some 1) (fun _ _ => 1)
        (mkState (fun _ => 100) (fun _ => 0) 0 0 1 : EngineState 1)
        [(0, []), (1, []), (2, [])] 0 0 = some 100 ∧
    some (105 : ℚ) ≠ some 100 := by
  refine ⟨?_, ?_, by norm_num⟩ <;>
    norm_num [runRecordedUnits, runDays, runDay, updatePortfolioStatus,
      updateConfirmedOrders, updatePortfolioRecords, appendOrders,
      handleOrder, processOrders, processTrade, recordOrder, applyOrder,
      dustClamp, mkState, redemptionError, subscriptionUnits,
      redemptionProceeds, recordedUnits, Fin.sum_univ_one, List.find?,
      Function.update, show ((1 : ℕ) == 0) = false from rfl,
      show ((2 : ℕ) == 0) = false from rfl]

set_option maxHeartbeats 2000000 in
/-- **C4 (amended).** Settlement lag: for every accepted order with trade
date `D` and confirm date `D + 2` — provided it is a subscription, or a
redemption requesting fewer than the current holding minus 10 units (so
the reconciliation clamp does not fire), and the holdings at `D` and after
the delta lie outside the `1e-4` dust band — the position ledger (units
and cost rows for the order's instrument) recorded at `D` and `D + 1` is
unchanged by the order, and at `D + 2` the full unit and cost deltas of
the order are applied.  (A tolerance-clamped redemption instead rewrites
the instrument's holdings already at `D`, as the counterexample shows.) -/
theorem settlement_lag {n : ℕ} (fundNavDict : Fin n → ℕ → Option ℚ)
    (fundNavDf : ℕ → Fin n → ℚ) (u0 c0 : Fin n → ℚ) (cu cn cun : ℚ)
    (o : Order n) (D : ℕ) (nav : ℚ)
    (hnav : fundNavDict o.fundCode D = some nav)
    (hcd : o.confirmDate = D + 2)
    (hdust0 : dustClamp (u0 o.fundCode) = u0 o.fundCode)
    (hdust2 : dustClamp (u0 o.fundCode + orderUnitsDelta o nav) =
      u0 o.fundCode + orderUnitsDelta o nav)
    (hsub : o.tradeType = .subscribe → ∃ a, o.amount = some a)
    (hred : o.tradeType = .redeem →
      ∃ u, o.units = some u ∧ u < u0 o.fundCode - 10) :
    runRecordedUnits fundNavDict fundNavDf (mkState u0 c0 cu cn cun)
        [(D, [o]), (D + 1, []), (D + 2, [])] D o.fundCode =
      some (u0 o.fundCode) ∧
    runRecordedUnits fundNavDict fundNavDf (mkState u0 c0 cu cn cun)
        [(D, [o]), (D + 1, []), (D + 2, [])] (D + 1) o.fundCode =
      some (u0 o.fundCode) ∧
    runRecordedUnits fundNavDict fundNavDf (mkState u0 c0 cu cn cun)
        [(D, [o]), (D + 1, []), (D + 2, [])] (D + 2) o.fundCode =
      some (u0 o.fundCode + orderUnitsDelta o nav) ∧
    runRecordedCosts fundNavDict fundNavDf (mkState u0 c0 cu cn cun)
        [(D, [o]), (D + 1, []), (D + 2, [])] D o.fundCode =
      some (c0 o.fundCode) ∧
    runRecordedCosts fundNavDict fundNavDf (mkState u0 c0 cu cn cun)
        [(D, [o]), (D + 1, []), (D + 2, [])] (D + 1) o.fundCode =
      some (c0 o.fundCode) ∧
    runRecordedCosts fundNavDict fundNavDf (mkState u0 c0 cu cn cun)
        [(D, [o]), (D + 1, []), (D + 2, [])] (D + 2) o.fundCode =
      some (c0 o.fundCode + orderCostDelta o nav) := by
  have ne1 : ¬(D = D + 1) := by omega
  have ne2 : ¬(D = D + 2) := by omega
  have ne3 : ¬(D + 1 = D) := by omega
  have ne4 : ¬(D + 1 = D + 2) := by omega
  have ne5 : ¬(D + 2 = D) := by omega
  have ne6 : ¬(D + 2 = D + 1) := by omega
  have ng1 : ¬(D > D + 2) := by omega
  have b1 : ((D + 2 : ℕ) == D) = false := by
    simp only [beq_eq_false_iff_ne]; omega
  have b2 : ((D + 1 : ℕ) == D) = false := by
    simp only [beq_eq_false_iff_ne]; omega
  have b3 : ((D + 2 : ℕ) == D + 1) = false := by
    simp only [beq_eq_false_iff_ne]; omega
  obtain ⟨fc, oam, ofl, opc, oty, ocd, oun⟩ := o
  simp only [Order.confirmDate] at hcd
  subst hcd
  simp only [Order.fundCode] at hnav hdust0 hdust2 hred
  cases oty with
  | subscribe =>
    obtain ⟨a, ha⟩ := hsub rfl
    subst ha
    simp only [orderUnitsDelta, orderCostDelta, Option.getD] at hdust2
    refine ⟨?_, ?_, ?_, ?_, ?_, ?_⟩ <;>
      simp [runRecordedUnits, runRecordedCosts, runDays, runDay,
        updatePortfolioStatus, updateConfirmedOrders, updatePortfolioRecords,
        appendOrders, handleOrder, processOrders, processTrade, recordOrder,
        applyOrder, mkState, recordedUnits, recordedCosts, orderUnitsDelta,
        orderCostDelta, hnav, hdust0, hdust2, ne1, ne2, ne3, ne4, ne5, ne6,
        ng1, b1, b2, b3, List.find?, Function.update,
        apply_ite EngineState.unitsSeries, apply_ite EngineState.costsSeries,
        apply_ite EngineState.confirmOrders, apply_ite EngineState.orderBook,
        apply_ite EngineState.nowadays, apply_ite EngineState.unitsDf,
        apply_ite EngineState.costsDf, apply_ite EngineState.navDf,
        apply_ite EngineState.currentUnits,
        apply_ite EngineState.portfolioSeries]
  | redeem =>
    obtain ⟨u, hu, hu2⟩ := hred rfl
    subst hu
    simp only [orderUnitsDelta, orderCostDelta, Option.getD] at hdust2
    refine ⟨?_, ?_, ?_, ?_, ?_, ?_⟩ <;>
      simp [runRecordedUnits, runRecordedCosts, runDays, runDay,
        updatePortfolioStatus, updateConfirmedOrders, updatePortfolioRecords,
        appendOrders, handleOrder, processOrders, processTrade, recordOrder,
        applyOrder, mkState, recordedUnits, recordedCosts, orderUnitsDelta,
        orderCostDelta, hnav, hdust0, redemptionError_skip hu2,
        ne1, ne2, ne3, ne4, ne5, ne6, ng1, b1, b2, b3, List.find?,
        Function.update, sub_eq_add_neg, hdust2,
        apply_ite EngineState.unitsSeries, apply_ite EngineState.costsSeries,
        apply_ite EngineState.confirmOrders, apply_ite EngineState.orderBook,
        apply_ite EngineState.nowadays, apply_ite EngineState.unitsDf,
        apply_ite EngineState.costsDf, apply_ite EngineState.navDf,
        apply_ite EngineState.currentUnits,
        apply_ite EngineState.portfolioSeries]

/-- Witness for the amended C4: one fund holding `100` units, a redemption
of `50` units placed on day `0` with confirm date `2`, NAV `1`, zero fees:
the recorded rows are `100, 100, 50` units and `0, 0, -50` cost. -/
theorem settlement_lag_witness :
    runRecordedUnits (fun _ _ => some 1) (fun _ _ => 1)
        (mkState (fun _ => 100) (fun _ => 0) 0 0 1 : EngineState 1)
        [(0, [⟨0, none, 0, 0, .redeem, 2, some 50⟩]), (1, []), (2, [])] 0 0 =
      some 100 ∧
    runRecordedUnits (fun _ _ => some 1) (fun _ _ => 1)
        (mkState (fun _ => 100) (fun _ => 0) 0 0 1 : EngineState 1)
        [(0, [⟨0, none, 0, 0, .redeem, 2, some 50⟩]), (1, []), (2, [])] 1 0 =
      some 100 ∧
    runRecordedUnits (fun _ _ => some 1) (fun _ _ => 1)
        (mkState (fun _ => 100) (fun _ => 0) 0 0 1 : EngineState 1)
        [(0, [⟨0, none, 0, 0, .redeem, 2, some 50⟩]), (1, []), (2, [])] 2 0 =
      some 50 ∧
    runRecordedCosts (fun _ _ => some 1) (fun _ _ => 1)
        (mkState (fun _ => 100) (fun _ => 0) 0 0 1 : EngineState 1)
        [(0, [⟨0, none, 0, 0, .redeem, 2, some 50⟩]), (1, []), (2, [])] 0 0 =
      some 0 ∧
    runRecordedCosts (fun _ _ => some 1) (fun _ _ => 1)
        (mkState (fun _ => 100) (fun _ => 0) 0 0 1 : EngineState 1)
        [(0, [⟨0, none, 0, 0, .redeem, 2, some 50⟩]), (1, []), (2, [])] 1 0 =
      some 0 ∧
    runRecordedCosts (fun _ _ => some 1) (fun _ _ => 1)
        (mkState (fun _ => 100) (fun _ => 0) 0 0 1 : EngineState 1)
        [(0, [⟨0, none, 0, 0, .redeem, 2, some 50⟩]), (1, []), (2, [])] 2 0 =
      some (-50) := by
  have h := settlement_lag (fun _ _ => some 1) (fun _ _ => 1)
    (fun _ => 100) (fun _ => 0) 0 0 1
    (⟨0, none, 0, 0, .redeem, 2, some 50⟩ : Order 1) 0 1 rfl rfl
    (by norm_num [dustClamp])
    (by norm_num [dustClamp, orderUnitsDelta])
    (fun hc => absurd hc (by simp))
    (fun _ => ⟨50, rfl, by norm_num⟩)
  refine ⟨h.1, h.2.1, ?_, h.2.2.2.1, h.2.2.2.2.1, ?_⟩
  · rw [h.2.2.1]
    norm_num [orderUnitsDelta]
  · rw [h.2.2.2.2.2]
    norm_num [orderCostDelta, redemptionProceeds]

/-- **C1 counterexample.** An order whose instrument has no NAV on the
trade date is *not* discarded from the order book and *is* re-attempted on
the next calendar date.  One fund, NAV missing on date `0` and equal to `1`
on date `1`; a subscription of `100` placed on date `0`: after day `0` the
order book still holds the order (size `1`, recorded units `0`), and after
day `1` the order has been re-attempted, confirmed and settled, leaving
`100` units recorded — contradicting "discarded from the order book, never
placed into the confirmation queue, and never re-attempted on any later
calendar date". -/
theorem missing_nav_retry_counterexample :
    runOrderBookSize (fun _ d => if d = 1 then some 1 else none)
        (fun _ _ => 1) (mkState (fun _ => 0) (fun _ => 0) 0 0 1 : EngineState 1)
        [(0, [⟨0, some 100, 0, 0, .subscribe, 0, none⟩])] = some 1 ∧
    runRecordedUnits (fun _ d => if d = 1 then some 1 else none)
        (fun _ _ => 1) (mkState (fun _ => 0) (fun _ => 0) 0 0 1 : EngineState 1)
        [(0, [⟨0, some 100, 0, 0, .subscribe, 0, none⟩])] 0 0 = some 0 ∧
    runRecordedUnits (fun _ d => if d = 1 then some 1 else none)
        (fun _ _ => 1) (mkState (fun _ => 0) (fun _ => 0) 0 0 1 : EngineState 1)
        [(0, [⟨0, some 100, 0, 0, .subscribe, 0, none⟩]), (1, [])] 1 0 =
      some 100 := by
  refine ⟨?_, ?_, ?_⟩ <;>
    norm_num [runOrderBookSize, runRecordedUnits, runDays, runDay,
      updatePortfolioStatus, updateConfirmedOrders, updatePortfolioRecords,
      appendOrders, handleOrder, processOrders, processTrade, recordOrder,
      applyOrder, dustClamp, mkState, redemptionError, subscriptionUnits,
      redemptionProceeds, recordedUnits, Fin.sum_univ_one, List.find?,
      Function.update]

/-- **C1 (amended).** For every order whose instrument has no NAV value for
the current date, `handle_order` rejects it *for that date*: it is logged
and the engine state is returned completely unchanged — nothing enters the
confirmation queue and the ledger is untouched — but the order is **not**
discarded: it stays in the order book, so it is re-attempted on every later
calendar date while it remains there (and settles if NAV appears, as the
counterexample shows). -/
theorem missing_nav_rejection {n : ℕ} (fundNavDict : Fin n → ℕ → Option ℚ)
    (s : EngineState n) (idx : ℕ) (o : Order n)
    (hbook : s.orderBook = [(idx, o)])
    (hnav : fundNavDict o.fundCode s.nowadays = none) :
    handleOrder fundNavDict s = .ok (s, []) := by
  unfold handleOrder
  rw [hbook]
  simp only [processOrders, processTrade_noNav fundNavDict s o hnav]
  simp [hbook]
  rw [← hbook]

/-- Witness for the amended C1: a concrete state holding exactly one order
for a fund with no NAV data is returned unchanged by `handle_order`. -/
theorem missing_nav_rejection_witness :
    handleOrder (fun _ _ => none)
        ({ mkState (fun _ => 0) (fun _ => 0) 0 0 1 with
           orderBook := [(0, ⟨0, some 100, 0, 0, .subscribe, 0, none⟩)] } :
          EngineState 1) =
      .ok
        ({ mkState (fun _ => 0) (fun _ => 0) 0 0 1 with
           orderBook := [(0, ⟨0, some 100, 0, 0, .subscribe, 0, none⟩)] },
         []) :=
  missing_nav_rejection (fun _ _ => none) _ 0
    ⟨0, some 100, 0, 0, .subscribe, 0, none⟩ rfl rfl


/-- **C8.** Maximum drawdown is computed against the running maximum of the
evaluated period: for the NAV series `[1.0, 1.2, 0.9, 1.1]` over 4
consecutive dates, `_calculate_period_metrics` reports maximum drawdown
`(0.9 - 1.2) / 1.2 = -0.25`, i.e. `-25` percent, with the drawdown start at
position 1 (the `1.2` peak) and the drawdown end at position 2 (the `0.9`
value). -/
theorem drawdown_running_max_scenario :
    maxDrawdownStats [1, 6 / 5, 9 / 10, 11 / 10] =
      some ((9 / 10 - 6 / 5) / (6 / 5) * 100, 1, 2) ∧
    (9 / 10 - 6 / 5 : ℚ) / (6 / 5) * 100 = -25 := by
  constructor
  · norm_num [maxDrawdownStats, drawdownSeries, expandingMax, expandingMaxAux,
      argminFirst, argminFirstAux, argmaxFirst, argmaxFirstAux, max_def]
  · norm_num

/-- **C9.** In periodic return computation the first period's return is
computed against the true start value of the NAV series: for any
nonempty NAV series lying entirely inside one resample period and starting
at value `v0`, `_calculate_returns` reports the single period's return as
`(last value / v0 - 1) * 100` — the series-start value, not a prior
resample boundary. -/
theorem first_period_return_against_series_start (m : ℕ) (v0 : ℚ)
    (rest : List (ℕ × ℚ)) (hm : ∀ p ∈ rest, p.1 = m) :
    calcPeriodReturns ((m, v0) :: rest) =
      [((rest.getLastD (m, v0)).2 / v0 - 1) * 100] := by
  have h := resampleLast_const_tag m rest v0 hm
  simp only [calcPeriodReturns, h, pctChangeFrom]

/-- Witness for C9, on the claim's scenario: a series starting the month at
`1.0` and ending it at `1.05` reports a `5`-percent return for that month. -/
theorem first_period_return_against_series_start_witness :
    calcPeriodReturns [(0, 1), (0, 21 / 20)] = [5] := by
  have h := first_period_return_against_series_start 0 1 [(0, 21 / 20)]
    (by simp)
  rw [h]; norm_num

/-- **C10.** The redemption tolerance clamp also fires when the requested
units are smaller than the current holding: for every redemption of `u`
units against holding `h` with `h - 10 ≤ u ≤ h`, `redemption_error`
silently (no warning) overwrites the holding to exactly `u` before
settlement, so applying the confirmed order through `_apply_order` leaves
the instrument's unit position at exactly zero; when `u < h - 10` the
holding is left untouched. -/
theorem redemption_clamp_below_holding {n : ℕ} (s : EngineState n)
    (i : Fin n) (u h a dp : ℚ) (cd : ℕ) :
    (h - 10 ≤ u → u ≤ h →
      redemptionError u h = .ok (some u, false) ∧
      (applyOrder
          { s with unitsSeries := Function.update s.unitsSeries i u }
          ⟨i, a, .redeem, cd, u, dp⟩).unitsSeries i = 0) ∧
    (u < h - 10 → redemptionError u h = .ok (none, false)) := by
  constructor
  · intro h1 h2
    constructor
    · exact redemptionError_silent (by rw [abs_le]; constructor <;> linarith)
    · simp [applyOrder, Function.update_same]
  · intro h1
    exact redemptionError_skip h1

/-- **C2.** For every redemption request of `u` units against a current
holding of `h` units with mismatch `m = u - h > 0`: if `m ≤ 10` the holding
is silently overwritten to `u` (clamp event with no warning) and the
redemption is recorded for settlement of exactly `u` units with no error;
if `10 < m ≤ 1000` a warning is logged, the holding is overwritten to `u`,
and the redemption settles `u` units; if `m > 1000` `process_trade` raises
the redemption-exceeds-holdings error (`ValueError("赎回份额超过持有份额")`)
and settles nothing. -/
theorem redemption_mismatch_regimes {n : ℕ}
    (fundNavDict : Fin n → ℕ → Option ℚ) (s : EngineState n) (o : Order n)
    (u nav : ℚ) (htype : o.tradeType = .redeem) (hunits : o.units = some u)
    (hnav : fundNavDict o.fundCode s.nowadays = some nav) :
    (0 < u - s.unitsSeries o.fundCode → u - s.unitsSeries o.fundCode ≤ 10 →
      ∃ s2, processTrade fundNavDict s o =
          .ok (s2, true, [⟨o.fundCode, s.unitsSeries o.fundCode, u, false⟩]) ∧
        s2.unitsSeries o.fundCode = u ∧
        ∃ co, s2.confirmOrders
            (if s.nowadays > o.confirmDate then s.nowadays else o.confirmDate) =
          s.confirmOrders
            (if s.nowadays > o.confirmDate then s.nowadays else o.confirmDate)
            ++ [co] ∧ co.units = u ∧ co.tradeType = .redeem) ∧
    (10 < u - s.unitsSeries o.fundCode → u - s.unitsSeries o.fundCode ≤ 1000 →
      ∃ s2, processTrade fundNavDict s o =
          .ok (s2, true, [⟨o.fundCode, s.unitsSeries o.fundCode, u, true⟩]) ∧
        s2.unitsSeries o.fundCode = u ∧
        ∃ co, s2.confirmOrders
            (if s.nowadays > o.confirmDate then s.nowadays else o.confirmDate) =
          s.confirmOrders
            (if s.nowadays > o.confirmDate then s.nowadays else o.confirmDate)
            ++ [co] ∧ co.units = u ∧ co.tradeType = .redeem) ∧
    (1000 < u - s.unitsSeries o.fundCode →
      processTrade fundNavDict s o = .error .redemptionExceedsHoldings) := by
  refine ⟨?_, ?_, ?_⟩
  · intro h1 h2
    have hre : redemptionError u (s.unitsSeries o.fundCode) =
        .ok (some u, false) :=
      redemptionError_silent (by rw [abs_le]; constructor <;> linarith)
    have hp := processTrade_redeem fundNavDict s o u nav (some u) false htype
      hunits hnav hre
    refine ⟨_, hp, ?_, ?_⟩
    · simp [recordOrder]
    · exact ⟨_, recordOrder_confirmOrders_at _ o.fundCode _ .redeem
        o.confirmDate u _, rfl, rfl⟩
  · intro h1 h2
    have hre : redemptionError u (s.unitsSeries o.fundCode) =
        .ok (some u, true) :=
      redemptionError_warn (by linarith) (by intro hc; linarith)
    have hp := processTrade_redeem fundNavDict s o u nav (some u) true htype
      hunits hnav hre
    refine ⟨_, hp, ?_, ?_⟩
    · simp [recordOrder]
    · exact ⟨_, recordOrder_confirmOrders_at _ o.fundCode _ .redeem
        o.confirmDate u _, rfl, rfl⟩
  · intro h1
    exact processTrade_redeem_error fundNavDict s o u nav _ htype hunits hnav
      (redemptionError_raise (by linarith))

/-- Witness for C2 at the spec's scenario values (`h = 1000` units):
requests of `1005`, `1050` and `5000` units exercise the three regimes. -/
theorem redemption_mismatch_regimes_witness :
    (∃ s2, processTrade (fun _ _ => some 1)
        (mkState (fun _ => 1000) (fun _ => 0) 0 0 1 : EngineState 1)
        ⟨0, none, 0, 0, .redeem, 2, some 1005⟩ =
        .ok (s2, true, [⟨0, 1000, 1005, false⟩]) ∧
      s2.unitsSeries 0 = 1005 ∧
      ∃ co, s2.confirmOrders 2 =
        (mkState (fun _ => (1000 : ℚ)) (fun _ => 0) 0 0 1 :
          EngineState 1).confirmOrders 2 ++ [co] ∧
        co.units = 1005 ∧ co.tradeType = .redeem) ∧
    (∃ s2, processTrade (fun _ _ => some 1)
        (mkState (fun _ => 1000) (fun _ => 0) 0 0 1 : EngineState 1)
        ⟨0, none, 0, 0, .redeem, 2, some 1050⟩ =
        .ok (s2, true, [⟨0, 1000, 1050, true⟩]) ∧
      s2.unitsSeries 0 = 1050) ∧
    processTrade (fun _ _ => some 1)
        (mkState (fun _ => 1000) (fun _ => 0) 0 0 1 : EngineState 1)
        ⟨0, none, 0, 0, .redeem, 2, some 5000⟩ =
      .error .redemptionExceedsHoldings := by
  refine ⟨?_, ?_, ?_⟩
  · have h := (redemption_mismatch_regimes (fun _ _ => some 1)
      (mkState (fun _ => 1000) (fun _ => 0) 0 0 1 : EngineState 1)
      ⟨0, none, 0, 0, .redeem, 2, some 1005⟩ 1005 1 rfl rfl rfl).1
      (by norm_num [mkState]) (by norm_num [mkState])
    obtain ⟨s2, hp, hu, co, hco, hcu, hct⟩ := h
    exact ⟨s2, hp, hu, co, hco, hcu, hct⟩
  · have h := (redemption_mismatch_regimes (fun _ _ => some 1)
      (mkState (fun _ => 1000) (fun _ => 0) 0 0 1 : EngineState 1)
      ⟨0, none, 0, 0, .redeem, 2, some 1050⟩ 1050 1 rfl rfl rfl).2.1
      (by norm_num [mkState]) (by norm_num [mkState])
    obtain ⟨s2, hp, hu, _⟩ := h
    exact ⟨s2, hp, hu⟩
  · exact (redemption_mismatch_regimes (fun _ _ => some 1)
      (mkState (fun _ => 1000) (fun _ => 0) 0 0 1 : EngineState 1)
      ⟨0, none, 0, 0, .redeem, 2, some 5000⟩ 5000 1 rfl rfl rfl).2.2
      (by norm_num [mkState])

/-- **C6.** For every subscription request with cash amount `A`, flat fee
`f`, percentage fee rate `p` (the order stores the percentage
`o.pctFee = 100 * p`), and trade-date NAV `nav`, `process_trade` records
purchased units `(A - f) / nav / (1 + p)`; for every redemption request of
`u` units whose proceeds are not independently supplied (`交易金额` null),
the recorded proceeds equal `u * nav * (1 - p) - f`. -/
theorem subscription_redemption_fee_formulas {n : ℕ}
    (fundNavDict : Fin n → ℕ → Option ℚ) (s : EngineState n) (o : Order n)
    (nav p : ℚ) (hnav : fundNavDict o.fundCode s.nowadays = some nav)
    (hp : p = o.pctFee / 100) :
    (∀ a, o.tradeType = .subscribe → o.amount = some a →
      ∃ s2, processTrade fundNavDict s o = .ok (s2, true, []) ∧
        ∃ co, s2.confirmOrders
            (if s.nowadays > o.confirmDate then s.nowadays else o.confirmDate) =
          s.confirmOrders
            (if s.nowadays > o.confirmDate then s.nowadays else o.confirmDate)
            ++ [co] ∧
          co.units = (a - o.flatFee) / nav / (1 + p) ∧
          co.tradeType = .subscribe) ∧
    (∀ u, o.tradeType = .redeem → o.amount = none → o.units = some u →
      ¬u > s.unitsSeries o.fundCode + 1000 →
      ∃ s2 evs, processTrade fundNavDict s o = .ok (s2, true, evs) ∧
        ∃ co, s2.confirmOrders
            (if s.nowadays > o.confirmDate then s.nowadays else o.confirmDate) =
          s.confirmOrders
            (if s.nowadays > o.confirmDate then s.nowadays else o.confirmDate)
            ++ [co] ∧
          co.amount = u * nav * (1 - p) - o.flatFee ∧
          co.tradeType = .redeem) := by
  constructor
  · intro a htype hamount
    have hp2 := processTrade_subscribe fundNavDict s o a nav htype hamount hnav
    refine ⟨_, hp2, _, recordOrder_confirmOrders_at s o.fundCode a .subscribe
      o.confirmDate _ _, ?_, rfl⟩
    simp only [subscriptionUnits, hp]
  · intro u htype hamount hunits hraise
    have hre : ∃ nh w,
        redemptionError u (s.unitsSeries o.fundCode) = .ok (nh, w) := by
      by_cases h1 : u > s.unitsSeries o.fundCode + 10
      · exact ⟨_, _, redemptionError_warn h1 hraise⟩
      · by_cases h2 : |u - s.unitsSeries o.fundCode| ≤ 10
        · exact ⟨_, _, redemptionError_silent h2⟩
        · refine ⟨_, _, redemptionError_skip ?_⟩
          push_neg at h1 h2
          rcases abs_cases (u - s.unitsSeries o.fundCode) with ⟨he, hs⟩ | ⟨he, hs⟩
          · rw [he] at h2; linarith
          · rw [he] at h2; linarith
    obtain ⟨nh, w, hre⟩ := hre
    have hp2 := processTrade_redeem fundNavDict s o u nav nh w htype hunits
      hnav hre
    rw [hamount] at hp2
    cases nh with
    | none =>
      refine ⟨_, _, hp2, _, recordOrder_confirmOrders_at s o.fundCode _
        .redeem o.confirmDate u _, ?_, rfl⟩
      simp only [redemptionProceeds, hp]
    | some nh2 =>
      refine ⟨_, _, hp2, _, recordOrder_confirmOrders_at _ o.fundCode _
        .redeem o.confirmDate u _, ?_, rfl⟩
      simp only [redemptionProceeds, hp]

/-- Witness for C6: a subscription of `A = 1030` at `nav = 2` with flat fee
`10` and percentage fee `2`% buys `(1030 - 10) / 2 / (1 + 2/100) = 500`
units; a redemption of `100` units at `nav = 2` with the same fees yields
proceeds `100 * 2 * (1 - 2/100) - 10 = 186`. -/
theorem subscription_redemption_fee_formulas_witness :
    (∃ s2, processTrade (fun _ _ => some 2)
        (mkState (fun _ => 1000) (fun _ => 0) 0 0 1 : EngineState 1)
        ⟨0, some 1030, 10, 2, .subscribe, 2, none⟩ = .ok (s2, true, []) ∧
      ∃ co, s2.confirmOrders 2 =
        (mkState (fun _ => (1000 : ℚ)) (fun _ => 0) 0 0 1 :
          EngineState 1).confirmOrders 2 ++ [co] ∧
        co.units = 500 ∧ co.tradeType = .subscribe) ∧
    (∃ s2 evs, processTrade (fun _ _ => some 2)
        (mkState (fun _ => 1000) (fun _ => 0) 0 0 1 : EngineState 1)
        ⟨0, none, 10, 2, .redeem, 2, some 100⟩ = .ok (s2, true, evs) ∧
      ∃ co, s2.confirmOrders 2 =
        (mkState (fun _ => (1000 : ℚ)) (fun _ => 0) 0 0 1 :
          EngineState 1).confirmOrders 2 ++ [co] ∧
        co.amount = 186 ∧ co.tradeType = .redeem) := by
  constructor
  · have h := (subscription_redemption_fee_formulas (fun _ _ => some 2)
      (mkState (fun _ => 1000) (fun _ => 0) 0 0 1 : EngineState 1)
      ⟨0, some 1030, 10, 2, .subscribe, 2, none⟩ 2 (2 / 100) rfl
      (by norm_num)).1 1030 rfl rfl
    obtain ⟨s2, hp2, co, hco, hcu, hct⟩ := h
    refine ⟨s2, hp2, co, hco, ?_, hct⟩
    rw [hcu]; norm_num
  · have h := (subscription_redemption_fee_formulas (fun _ _ => some 2)
      (mkState (fun _ => 1000) (fun _ => 0) 0 0 1 : EngineState 1)
      ⟨0, none, 10, 2, .redeem, 2, some 100⟩ 2 (2 / 100) rfl
      (by norm_num)).2 100 rfl rfl rfl (by norm_num [mkState])
    obtain ⟨s2, evs, hp2, co, hco, hca, hct⟩ := h
    refine ⟨s2, evs, hp2, co, hco, ?_, hct⟩
    rw [hca]; norm_num

/-- **C5 counterexample.** Under the next-day (`'yesterday'`) policy the
claim is false: `generate_redemptions` prices current value with the NAV of
the generation date, not the switch date.  With `nav(0) = 1` on the
generation date, `nav(1) = 2` on the switch date, holdings `10`, portfolio
NAV `10` and target weight `1/2`, the code generates a redemption of `5`
units, while the claim's formula — current holdings minus implied target
units at the switch-date NAV — gives `10 - 10 * (1/2) / 2 = 15/2`. -/
theorem weight_redemption_switch_nav_counterexample :
    redemptionLeg .yesterday 0 5 (fun _ => true) (fun _ => 1 / 2)
        (fun d => if d = 0 then 1 else 2) 10 10 = some (5, 0, 1) ∧
    claimRedemptionUnits 10 10 (1 / 2)
        ((fun d : ℕ => if d = 0 then (1 : ℚ) else 2) 1) = 15 / 2 ∧
    (5 : ℚ) ≠ 15 / 2 := by
  refine ⟨?_, ?_, by norm_num⟩
  · norm_num [redemptionLeg, generateRedemptionUnits]
  · norm_num [claimRedemptionUnits]

/-- **C5 (amended).** In weight-based trade generation the target value is
`current_total_NAV * target_weight` for every instrument; a redemption is
generated exactly when the instrument's current value priced at the NAV of
the **generation date** exceeds that target, for the excess expressed as
current holdings minus the implied target units at that same NAV.  Under
the same-day (`'today'`) policy the generation date *is* the switch date,
so there the claim's switch-date formula holds exactly; under the next-day
(`'yesterday'`) policy the switch date is the following trading day and the
redemption leg instead uses the generation-date NAV. -/
theorem weight_redemption_generation (date lastTradeDate : ℕ)
    (dateInTable : ℕ → Bool) (weightOn : ℕ → ℚ) (navDf : ℕ → ℚ)
    (units currentNav : ℚ) (hnav : 0 < navDf date) :
    (date < lastTradeDate → dateInTable (date + 1) = true →
      redemptionLeg .yesterday date lastTradeDate dateInTable weightOn navDf
          units currentNav =
        if currentNav * weightOn (date + 1) < units * navDf date then
          some (generateRedemptionUnits units currentNav (weightOn (date + 1))
            (navDf date), date, date + 1)
        else none) ∧
    (date ≤ lastTradeDate → dateInTable date = true →
      redemptionLeg .today date lastTradeDate dateInTable weightOn navDf
          units currentNav =
        if currentNav * weightOn date < units * navDf date then
          some (claimRedemptionUnits units currentNav (weightOn date)
            (navDf date), date, date)
        else none) := by
  constructor
  · intro hd ht
    have hiff : generateRedemptionUnits units currentNav (weightOn (date + 1))
        (navDf date) > 0 ↔
        currentNav * weightOn (date + 1) < units * navDf date := by
      unfold generateRedemptionUnits
      rw [gt_iff_lt, sub_pos, div_lt_iff₀ hnav]
    simp only [redemptionLeg, ht, Bool.not_true, if_neg (not_le.mpr hd),
      Bool.false_eq_true, if_false]
    rw [if_congr hiff rfl rfl]
  · intro hd ht
    have hiff : generateRedemptionUnits units currentNav (weightOn date)
        (navDf date) > 0 ↔
        currentNav * weightOn date < units * navDf date := by
      unfold generateRedemptionUnits
      rw [gt_iff_lt, sub_pos, div_lt_iff₀ hnav]
    simp only [redemptionLeg, ht, Bool.not_true, if_neg (not_lt.mpr hd),
      Bool.false_eq_true, if_false]
    rw [if_congr hiff rfl rfl]
    rfl

/-- Witness for the amended C5, exercising both policies at the
counterexample's data. -/
theorem weight_redemption_generation_witness :
    redemptionLeg .yesterday 0 5 (fun _ => true) (fun _ => 1 / 2)
        (fun d => if d = 0 then 1 else 2) 10 10 =
      (if (10 : ℚ) * (1 / 2) < 10 * ((fun d : ℕ => if d = 0 then (1 : ℚ) else 2) 0) then
        some (generateRedemptionUnits 10 10 (1 / 2)
          ((fun d : ℕ => if d = 0 then (1 : ℚ) else 2) 0), 0, 1)
      else none) ∧
    redemptionLeg .today 0 5 (fun _ => true) (fun _ => 1 / 2)
        (fun d => if d = 0 then 1 else 2) 10 10 =
      (if (10 : ℚ) * (1 / 2) < 10 * ((fun d : ℕ => if d = 0 then (1 : ℚ) else 2) 0) then
        some (claimRedemptionUnits 10 10 (1 / 2)
          ((fun d : ℕ => if d = 0 then (1 : ℚ) else 2) 0), 0, 0)
      else none) := by
  constructor
  · exact (weight_redemption_generation 0 5 (fun _ => true) (fun _ => 1 / 2)
      (fun d => if d = 0 then 1 else 2) 10 10 (by norm_num)).1
      (by norm_num) rfl
  · exact (weight_redemption_generation 0 5 (fun _ => true) (fun _ => 1 / 2)
      (fun d => if d = 0 then 1 else 2) 10 10 (by norm_num)).2
      (by norm_num) rfl

/-- **C7.** First-rebalance round trip: when the first rebalance event has
target weights summing to `1` over the instruments, all weights positive,
positive NAVs and initial notional `N > 0` with zero fees,
`_generate_initial_trades` produces a pure subscription of `N * w i` for
every instrument `i` (no redemption leg exists at the initial event), the
amounts sum exactly to `N`, and pricing the purchased units at the
trade-date NAVs reproduces each target weight exactly (hence within any
numeric tolerance). -/
theorem initial_rebalance_round_trip (k : ℕ) (w nav : Fin k → ℚ) (N : ℚ)
    (hw : ∑ i, w i = 1) (hwpos : ∀ i, 0 < w i) (hnav : ∀ i, 0 < nav i)
    (hN : 0 < N) :
    (∀ i, initialTradeAmount N (w i) = some (N * w i)) ∧
    (∑ i, (initialTradeAmount N (w i)).getD 0 = N) ∧
    (∀ i, subscriptionUnits (N * w i) 0 (nav i) 0 * nav i /
        (∑ j, subscriptionUnits (N * w j) 0 (nav j) 0 * nav j) = w i) := by
  have hamt : ∀ i, initialTradeAmount N (w i) = some (N * w i) := by
    intro i
    unfold initialTradeAmount generateSubscriptionAmount
    rw [if_pos]
    · ring_nf
    · have := mul_pos hN (hwpos i)
      simp only [zero_mul, sub_zero, gt_iff_lt]
      linarith
  have hval : ∀ i, subscriptionUnits (N * w i) 0 (nav i) 0 * nav i = N * w i := by
    intro i
    unfold subscriptionUnits
    rw [sub_zero]
    norm_num
    rw [div_mul_cancel₀ _ (ne_of_gt (hnav i))]
  have hsum : ∑ j, subscriptionUnits (N * w j) 0 (nav j) 0 * nav j = N := by
    calc ∑ j, subscriptionUnits (N * w j) 0 (nav j) 0 * nav j
        = ∑ j, N * w j := by
          apply Finset.sum_congr rfl
          intro j _
          exact hval j
      _ = N * ∑ j, w j := by rw [Finset.mul_sum]
      _ = N := by rw [hw, mul_one]
  refine ⟨hamt, ?_, ?_⟩
  · calc ∑ i, (initialTradeAmount N (w i)).getD 0
        = ∑ i, N * w i := by
          apply Finset.sum_congr rfl
          intro i _
          rw [hamt i]
          rfl
      _ = N * ∑ i, w i := by rw [Finset.mul_sum]
      _ = N := by rw [hw, mul_one]
  · intro i
    rw [hval i, hsum, mul_comm, mul_div_assoc, div_self (ne_of_gt hN), mul_one]

/-- Witness for C7 at the spec's scenario: two instruments at weight `1/2`
each, NAVs `1` and `2`, initial notional `1000000`, zero fees. -/
theorem initial_rebalance_round_trip_witness :
    initialTradeAmount 1000000 ((![1 / 2, 1 / 2] : Fin 2 → ℚ) 0) =
      some (1000000 * (![1 / 2, 1 / 2] : Fin 2 → ℚ) 0) ∧
    (∑ i : Fin 2, (initialTradeAmount 1000000 ((![1 / 2, 1 / 2]) i)).getD 0 =
      1000000) ∧
    subscriptionUnits (1000000 * (![1 / 2, 1 / 2] : Fin 2 → ℚ) 0) 0
        ((![1, 2] : Fin 2 → ℚ) 0) 0 * (![1, 2] : Fin 2 → ℚ) 0 /
      (∑ j : Fin 2,
        subscriptionUnits (1000000 * (![1 / 2, 1 / 2]) j) 0 ((![1, 2]) j) 0 *
          (![1, 2]) j) = (![1 / 2, 1 / 2] : Fin 2 → ℚ) 0 := by
  have h := initial_rebalance_round_trip 2 (![1 / 2, 1 / 2]) (![1, 2]) 1000000
    (by norm_num [Fin.sum_univ_two])
    (by intro i; fin_cases i <;> norm_num)
    (by intro i; fin_cases i <;> norm_num)
    (by norm_num)
  exact ⟨h.1 0, h.2.1, h.2.2 0⟩

/-- Witness for C10 at `h = 1000`, `u = 995` (mismatch `-5`, inside the
tolerance band): the holding is clamped to `995` and settles to zero; and
at `u = 985` (more than 10 units below the holding) nothing is rewritten. -/
theorem redemption_clamp_below_holding_witness :
    (redemptionError 995 1000 = .ok (some 995, false) ∧
      (applyOrder
          { mkState (fun _ => 1000) (fun _ => 0) 0 0 1 with
            unitsSeries :=
              Function.update
                ((mkState (fun _ => (1000 : ℚ)) (fun _ => 0) 0 0 1 :
                  EngineState 1).unitsSeries) 0 995 }
          ⟨0, 995, .redeem, 2, 995, 995⟩).unitsSeries 0 = 0) ∧
    redemptionError 985 1000 = .ok (none, false) := by
  refine ⟨(redemption_clamp_below_holding
      (mkState (fun _ => 1000) (fun _ => 0) 0 0 1) 0 995 1000 995 995 2).1
      (by norm_num) (by norm_num), ?_⟩
  exact (redemption_clamp_below_holding
      (mkState (fun _ => (1000 : ℚ)) (fun _ => 0) 0 0 1 : EngineState 1) 0 985
      1000 985 985 2).2 (by norm_num)

end FundBacktest
